import Mathlib

/-!
Verification of the drone-core repository specification.

The sources under scrutiny are:
 - `src/src/ffi/string.rs` — the owned C-string type `CString` with its
   constructors, error types and byte views;
 - `src/macros/src/thr.rs` — the procedural macro generating a thread
   descriptor (shared/local field partition, fiber chain, task and
   preempted cells);
 - `src/tests/reg.rs`, `src/tests/run-pass/cr_sr_send_sync.rs` — tests of
   the register token system.

The register value/field machinery and the fiber `Chain` implementation are
not among the sources (only their tests and callers are); those parts are
modelled from the specification, as marked on each definition.
-/

namespace DroneCore

/-! ## Register model -/

/-- Modelled from the spec: a `RegisterDescriptor` carries an address, a bit
width and a reset value fitting that width (§3). The `reg!` macro output that
realizes it is not among the sources; `src/tests/reg.rs` declares the concrete
instance used in the tests. -/
structure RegisterDescriptor where
  address : Nat
  width : Nat
  reset_value : Nat
  deriving Repr, DecidableEq

/-- Modelled from the spec: a `BitFieldDescriptor` is an offset and a bit
count, with `offset + width ≤ register width` (§3). -/
structure BitFieldDescriptor where
  offset : Nat
  width : Nat
  deriving Repr, DecidableEq

/-- Modelled from the spec: a `RegisterValue` wraps a bit pattern of the
register width; excess high bits are masked on construction (§3). -/
structure RegisterValue where
  width : Nat
  bits : Nat
  deriving Repr, DecidableEq

/-- Modelled from the spec: construction masks the supplied pattern to the
declared width (§3, "excess high bits are masked on construction"). -/
def RegisterValue.ofBits (w x : Nat) : RegisterValue :=
  ⟨w, x % 2 ^ w⟩

/-- Modelled from the spec: `default_val()` returns the reset value as a typed
value (§4.1). -/
def default_val (r : RegisterDescriptor) : RegisterValue :=
  RegisterValue.ofBits r.width r.reset_value

/-- Modelled from the spec: field read masks and shifts by (offset, width)
(§3, §4.1). -/
def readField (v : RegisterValue) (f : BitFieldDescriptor) : Nat :=
  (v.bits >>> f.offset) % 2 ^ f.width

/-- Modelled from the spec: field write masks the value to the declared field
width, clears the field bits and inserts the masked value (§4.1, "values are
masked to width on write"). -/
def writeField (v : RegisterValue) (f : BitFieldDescriptor) (x : Nat) : RegisterValue :=
  ⟨v.width,
    (v.bits &&& ((2 ^ v.width - 1) ^^^ ((2 ^ f.width - 1) <<< f.offset)))
      ||| ((x % 2 ^ f.width) <<< f.offset)⟩

/-- The register declared in `src/tests/reg.rs`: address `0xDEAD_BEEF`, width
`0x20` bits, reset value `0xBEEF_CACE`. -/
def TEST_REG : RegisterDescriptor :=
  ⟨0xDEADBEEF, 0x20, 0xBEEFCACE⟩

/-- The field `TEST_BIT { 0 1 }` of `src/tests/reg.rs`. -/
def TEST_BIT : BitFieldDescriptor :=
  ⟨0, 1⟩

/-- The field `TEST_BITS { 1 3 }` of `src/tests/reg.rs`. -/
def TEST_BITS : BitFieldDescriptor :=
  ⟨1, 3⟩



/-! ## Register theorems (C1, C2, C3) -/

/-- C1: for every register declared with width W and reset value V fitting in
W, `default_val().bits()` returns exactly V. -/
theorem default_val_bits (r : RegisterDescriptor) (h : r.reset_value < 2 ^ r.width) :
    (default_val r).bits = r.reset_value := by
  simp [default_val, RegisterValue.ofBits, Nat.mod_eq_of_lt h]

/-- Witness for C1: the register of `src/tests/reg.rs` has reset value
`0xBEEF_CACE` fitting in 32 bits, and `default_val().bits()` returns it. -/
theorem default_val_bits_witness :
    TEST_REG.reset_value < 2 ^ TEST_REG.width ∧
    (default_val TEST_REG).bits = 0xBEEFCACE :=
  ⟨by decide, default_val_bits TEST_REG (by decide)⟩

/-- C2: for every field of offset o and width w with o + w within the register
width, writing x to the field and reading it back yields x mod 2^w. -/
theorem field_write_read (v : RegisterValue) (f : BitFieldDescriptor) (x : Nat)
    (h : f.offset + f.width ≤ v.width) :
    readField (writeField v f x) f = x % 2 ^ f.width := by
  apply Nat.eq_of_testBit_eq
  intro i
  simp only [readField, writeField, Nat.testBit_mod_two_pow, Nat.testBit_shiftRight,
    Nat.testBit_lor, Nat.testBit_land, Nat.testBit_xor, Nat.testBit_shiftLeft,
    Nat.testBit_two_pow_sub_one, Nat.add_sub_cancel_left]
  by_cases hi : i < f.width
  · have h1 : f.offset + i < v.width := by omega
    have h2 : f.offset ≤ f.offset + i := Nat.le_add_right _ _
    simp [hi, h1, h2, Nat.add_sub_cancel_left]
  · have h3 : x % 2 ^ f.width < 2 ^ i := by
      calc x % 2 ^ f.width < 2 ^ f.width := Nat.mod_lt _ (Nat.two_pow_pos _)
        _ ≤ 2 ^ i := Nat.pow_le_pow_right (by norm_num) (by omega)
    simp [hi, Nat.testBit_lt_two_pow h3]

/-- Witness for C2: writing 0xFF to the 3-bit field `TEST_BITS` of the test
register and reading it back yields 0xFF mod 8 = 7. -/
theorem field_write_read_witness :
    TEST_BITS.offset + TEST_BITS.width ≤ (default_val TEST_REG).width ∧
    readField (writeField (default_val TEST_REG) TEST_BITS 0xFF) TEST_BITS = 0xFF % 2 ^ 3 :=
  ⟨by decide, field_write_read (default_val TEST_REG) TEST_BITS 0xFF (by decide)⟩

/-- C3 counterexample: extracting `TEST_BITS` (offset 1, width 3) from the
default value `0xBEEF_CACE` does not yield 3, so the claim as stated is
false. -/
theorem scenario_a_counterexample :
    ¬(readField (default_val TEST_REG) TEST_BIT = 0 ∧
      readField (default_val TEST_REG) TEST_BITS = 3) := by
  decide

/-- C3 amended: extracting `TEST_BIT` from the default value yields 0, and
extracting `TEST_BITS` yields 7, which equals `(0xCACE >> 1) & 0b111`. -/
theorem scenario_a_amended :
    (default_val TEST_REG).bits = 0xBEEFCACE ∧
    readField (default_val TEST_REG) TEST_BIT = 0 ∧
    readField (default_val TEST_REG) TEST_BITS = 7 ∧
    (0xCACE >>> 1) &&& 0b111 = 7 := by
  decide
/-! ## Fiber chain model -/

/-- Modelled from the spec: a Fiber is a resumable unit of work; when polled
it either yields (staying Active, to be polled again next pass) or completes
(terminal, unlinked) (§3, §4.3). `fuel` is the number of polls on which the
fiber yields before the poll on which it completes; `id` identifies the fiber
in the poll log. The `Chain`/fiber implementation is not among the sources. -/
structure Fiber where
  id : Nat
  fuel : Nat
  deriving Repr, DecidableEq

/-- Modelled from the spec: `dispatch()` walks the chain front-to-back exactly
once; each fiber is polled in order; a fiber that completes is unlinked in
place; a fiber that yields keeps its chain position (§4.3). The result is the
poll log (ids in poll order) paired with the chain left for the next pass. -/
def dispatch : List Fiber → List Nat × List Fiber
  | [] => ([], [])
  | f :: rest =>
    let r := dispatch rest
    if f.fuel = 0 then (f.id :: r.1, r.2)
    else (f.id :: r.1, ⟨f.id, f.fuel - 1⟩ :: r.2)

/-- Modelled from the spec: `Chain::new()` creates the fiber chain of a fresh
thread descriptor, initially empty (§8 Scenario B: "the fiber chain is empty
(dispatch is a no-op)"). -/
def Chain.new : List Fiber := []

theorem dispatch_fst (ch : List Fiber) : (dispatch ch).1 = ch.map Fiber.id := by
  induction ch with
  | nil => rfl
  | cons f rest ih =>
    simp only [dispatch, List.map_cons]
    by_cases h : f.fuel = 0 <;> simp [h, ih]

theorem dispatch_snd (ch : List Fiber) :
    (dispatch ch).2 =
      ch.filterMap (fun f => if f.fuel = 0 then none else some ⟨f.id, f.fuel - 1⟩) := by
  induction ch with
  | nil => rfl
  | cons f rest ih =>
    simp only [dispatch, List.filterMap_cons]
    by_cases h : f.fuel = 0 <;> simp [h, ih]

/-! ## Fiber chain theorem (C4) -/

/-- C4: dispatch polls the fibers strictly in insertion order; when fiber ids
are distinct, a fiber that completed on a pass is absent from the next pass,
and a fiber that yielded is present and polled again on the next pass. In
particular, with F1 (yields once, then completes) and F2 (completes at once)
added in that order: pass 1 polls F1 then F2 and removes F2; pass 2 polls only
F1 and removes it, leaving the chain empty. -/
theorem chain_dispatch (ch : List Fiber) (h : (ch.map Fiber.id).Nodup) :
    (dispatch ch).1 = ch.map Fiber.id ∧
    (∀ f ∈ ch, f.fuel = 0 → f.id ∉ (dispatch ch).2.map Fiber.id) ∧
    (∀ f ∈ ch, f.fuel ≠ 0 →
      f.id ∈ (dispatch ch).2.map Fiber.id ∧ f.id ∈ (dispatch (dispatch ch).2).1) ∧
    dispatch [Fiber.mk 1 1, Fiber.mk 2 0] = ([1, 2], [Fiber.mk 1 0]) ∧
    dispatch [Fiber.mk 1 0] = ([1], []) := by
  refine ⟨dispatch_fst ch, ?_, ?_, by decide, by decide⟩
  · intro f hf hfuel hmem
    rw [dispatch_snd] at hmem
    rcases List.mem_map.1 hmem with ⟨g, hg, hgid⟩
    rcases List.mem_filterMap.1 hg with ⟨a, ha, hag⟩
    by_cases hz : a.fuel = 0
    · simp [hz] at hag
    · simp only [hz, if_false] at hag
      have hg2 : Fiber.mk a.id (a.fuel - 1) = g := Option.some.inj hag
      have hIdEq : a.id = f.id := by
        rw [← hgid, ← hg2]
      have := List.inj_on_of_nodup_map h ha hf hIdEq
      rw [this] at hz
      exact hz hfuel
  · intro f hf hfuel
    have hmem : Fiber.mk f.id (f.fuel - 1) ∈ (dispatch ch).2 := by
      rw [dispatch_snd]
      exact List.mem_filterMap.2 ⟨f, hf, by simp [hfuel]⟩
    constructor
    · exact List.mem_map.2 ⟨_, hmem, rfl⟩
    · rw [dispatch_fst]
      exact List.mem_map.2 ⟨_, hmem, rfl⟩

/-- Witness for C4: the two-fiber scenario chain has distinct ids; applying
the theorem to it gives the pass-1 poll order [1, 2]. -/
theorem chain_dispatch_witness :
    ([Fiber.mk 1 1, Fiber.mk 2 0].map Fiber.id).Nodup ∧
    (dispatch [Fiber.mk 1 1, Fiber.mk 2 0]).1 = [1, 2] :=
  ⟨by decide, (chain_dispatch [Fiber.mk 1 1, Fiber.mk 2 0] (by decide)).1⟩

/-! ## Thread descriptor generation model (from `src/macros/src/thr.rs`) -/

/-- One input field of the thread generator (`struct Field` in
`src/macros/src/thr.rs`): `shared` records whether the field was marked `pub`,
`ident` its name, `init` its initializer. The initializer expression is
represented by its value of type α; attributes and the field type are elided
as they do not affect placement. -/
structure ThrInputField (α : Type) where
  shared : Bool
  ident : String
  init : α
  deriving Repr, DecidableEq

/-- One entry of a generated constructor body, mirroring the tokens pushed in
`proc_macro` of `src/macros/src/thr.rs`: a plain `ident: init` pair,
`fib_chain: Chain::new()`, `task: TaskCell::new()`, or
`preempted: PreemptedCell::new()`. -/
inductive CtorEntry (α : Type) where
  | field (ident : String) (init : α)
  | chainNew
  | taskCellNew
  | preemptedCellNew
  deriving Repr, DecidableEq

/-- The constructor body of the generated thread struct: the loop over
`fields` pushes `ident: init` for each `pub` (shared) field in order, then
`fib_chain: Chain::new()` is appended (`src/macros/src/thr.rs` lines 72–91). -/
def thr_ctor_tokens (fields : List (ThrInputField α)) : List (CtorEntry α) :=
  (fields.filter (fun f => f.shared)).map (fun f => CtorEntry.field f.ident f.init)
    ++ [CtorEntry.chainNew]

/-- The constructor body of the generated local struct: the loop pushes
`ident: init` for each non-`pub` (local) field in order, then
`task: TaskCell::new()` and `preempted: PreemptedCell::new()` are appended
(`src/macros/src/thr.rs` lines 72–95). -/
def local_ctor_tokens (fields : List (ThrInputField α)) : List (CtorEntry α) :=
  (fields.filter (fun f => !f.shared)).map (fun f => CtorEntry.field f.ident f.init)
    ++ [CtorEntry.taskCellNew, CtorEntry.preemptedCellNew]

/-- The input of Scenario B: one shared field `counter` initialized to 0 and
no local fields. -/
def scenarioB : List (ThrInputField Nat) :=
  [⟨true, "counter", 0⟩]

/-! ## Thread descriptor theorem (C5) -/

/-- C5: the generated constructor places every shared field with its
initializer in the thread structure and every local field in the local
structure together with a TaskCell and a PreemptedCell, and adds a fiber
chain initialized empty via `Chain::new()`; the descriptor of Scenario B (one
shared field `counter: 0`, no local fields) has `counter = 0` and an empty
fiber chain on which dispatch is a no-op. -/
theorem thr_new_ctor (α : Type) (fields : List (ThrInputField α)) :
    (∀ f ∈ fields, f.shared = true →
      CtorEntry.field f.ident f.init ∈ thr_ctor_tokens fields) ∧
    (∀ f ∈ fields, f.shared = false →
      CtorEntry.field f.ident f.init ∈ local_ctor_tokens fields) ∧
    CtorEntry.chainNew ∈ thr_ctor_tokens fields ∧
    CtorEntry.taskCellNew ∈ local_ctor_tokens fields ∧
    CtorEntry.preemptedCellNew ∈ local_ctor_tokens fields ∧
    Chain.new = ([] : List Fiber) ∧
    thr_ctor_tokens scenarioB = [CtorEntry.field "counter" 0, CtorEntry.chainNew] ∧
    local_ctor_tokens scenarioB = [CtorEntry.taskCellNew, CtorEntry.preemptedCellNew] ∧
    dispatch Chain.new = ([], []) := by
  refine ⟨?_, ?_, ?_, ?_, ?_, rfl, rfl, rfl, rfl⟩
  · intro f hf hs
    apply List.mem_append_left
    exact List.mem_map.2 ⟨f, List.mem_filter.2 ⟨hf, hs⟩, rfl⟩
  · intro f hf hs
    apply List.mem_append_left
    exact List.mem_map.2 ⟨f, List.mem_filter.2 ⟨hf, by simp [hs]⟩, rfl⟩
  · exact List.mem_append_right _ (by simp)
  · exact List.mem_append_right _ (by simp)
  · exact List.mem_append_right _ (by simp)

/-- Witness for C5: applying the theorem to the Scenario B input places the
shared field `counter: 0` in the generated thread constructor. -/
theorem thr_new_ctor_witness :
    CtorEntry.field "counter" (0 : Nat) ∈ thr_ctor_tokens scenarioB :=
  (thr_new_ctor Nat scenarioB).1 ⟨true, "counter", 0⟩ (by simp [scenarioB]) rfl

/-! ## CString model (from `src/src/ffi/string.rs`) -/

/-- The owned C string of `src/src/ffi/string.rs`: `inner` is the heap byte
buffer `Box<[u8]>`, which includes the trailing nul byte. Bytes are modelled
as natural numbers (byte values are below 256). -/
structure CString where
  inner : List Nat
  deriving Repr, DecidableEq

/-- The error of `CString::new`: `NulError(usize, Vec<u8>)` carries the
position of the nul byte and the original bytes. -/
structure NulError where
  pos : Nat
  bytes : List Nat
  deriving Repr, DecidableEq

/-- The `core::slice::memchr::memchr` used by `CString::_new`: the index of
the first occurrence of the needle byte, if any. -/
def memchr (needle : Nat) : List Nat → Option Nat
  | [] => none
  | b :: rest =>
    if b = needle then some 0 else (memchr needle rest).map (· + 1)

/-- `CString::from_vec_unchecked`: appends a single 0 byte to the buffer
(`src/src/ffi/string.rs` lines 187–193). -/
def from_vec_unchecked (v : List Nat) : CString :=
  ⟨v ++ [0]⟩

/-- `CString::_new` (reached from `CString::new`,
`src/src/ffi/string.rs` lines 161–166): an interior 0 byte yields
`Err(NulError(i, bytes))` at the first such position, otherwise the buffer is
nul-terminated. -/
def CString.new (bytes : List Nat) : Except NulError CString :=
  match memchr 0 bytes with
  | some i => Except.error ⟨i, bytes⟩
  | none => Except.ok (from_vec_unchecked bytes)

/-- `NulError::nul_position` (`src/src/ffi/string.rs` lines 444–446). -/
def NulError.nul_position (e : NulError) : Nat := e.pos

/-- `NulError::into_vec` (`src/src/ffi/string.rs` lines 459–461). -/
def NulError.into_vec (e : NulError) : List Nat := e.bytes

/-- `CString::as_bytes`: the buffer without its final byte
(`&self.inner[..self.inner.len() - 1]`). -/
def CString.as_bytes (c : CString) : List Nat := c.inner.dropLast

/-- `CString::as_bytes_with_nul`: the whole buffer (`&self.inner`). -/
def CString.as_bytes_with_nul (c : CString) : List Nat := c.inner

/-- `CString::into_bytes`: the buffer with the trailing nul popped off. -/
def CString.into_bytes (c : CString) : List Nat := c.inner.dropLast

theorem memchr_eq_none {needle : Nat} {l : List Nat} :
    memchr needle l = none ↔ needle ∉ l := by
  induction l with
  | nil => simp [memchr]
  | cons b rest ih =>
    by_cases hb : b = needle
    · simp [memchr, hb]
    · simp only [memchr, hb, if_false, List.mem_cons]
      cases h : memchr needle rest with
      | none => simp [h, ih.1 h, Ne.symm hb]
      | some i => simp [Option.map, ← ih, h, Ne.symm hb]

theorem memchr_eq_some {needle : Nat} {l : List Nat} {i : Nat}
    (h : memchr needle l = some i) :
    l[i]? = some needle ∧ ∀ j < i, l[j]? ≠ some needle := by
  induction l generalizing i with
  | nil => simp [memchr] at h
  | cons b rest ih =>
    by_cases hb : b = needle
    · simp only [memchr, hb, if_true, Option.some.injEq] at h
      subst h
      simp [hb]
    · simp only [memchr, hb, if_false] at h
      cases hr : memchr needle rest with
      | none => rw [hr] at h; simp at h
      | some k =>
        rw [hr] at h
        simp only [Option.map, Option.some.injEq] at h
        subst h
        rcases ih hr with ⟨h1, h2⟩
        refine ⟨by simpa using h1, ?_⟩
        intro j hj
        cases j with
        | zero => simpa using hb
        | succ j2 =>
          have : j2 < k := by omega
          simpa using h2 j2 this

/-! ## CString theorems (C6, C7) -/

/-- C6: `CString::new(bytes)` errors exactly when the bytes contain a 0 byte;
on error the `NulError` carries the position of the first interior 0 byte
(recoverable via `nul_position`) and the original bytes (recoverable via
`into_vec`); otherwise it returns the bytes with a trailing 0 appended. -/
theorem cstring_new_spec (bytes : List Nat) :
    ((0 : Nat) ∉ bytes → CString.new bytes = Except.ok ⟨bytes ++ [0]⟩) ∧
    ((0 : Nat) ∈ bytes → ∃ e, CString.new bytes = Except.error e ∧
      e.into_vec = bytes ∧
      bytes[e.nul_position]? = some 0 ∧
      ∀ j < e.nul_position, bytes[j]? ≠ some 0) := by
  constructor
  · intro h0
    rw [CString.new, memchr_eq_none.2 h0]
    rfl
  · intro h0
    cases hm : memchr 0 bytes with
    | none => exact absurd (memchr_eq_none.1 hm) (by simp [h0])
    | some i =>
      rcases memchr_eq_some hm with ⟨h1, h2⟩
      refine ⟨⟨i, bytes⟩, ?_, rfl, h1, h2⟩
      rw [CString.new, hm]

/-- Witness for C6: `new` on nul-free bytes `[102, 111, 111]` appends the
terminator; `new` on `[102, 0, 111]` errors, recovering position 1 and the
original bytes. -/
theorem cstring_new_spec_witness :
    CString.new [102, 111, 111] = Except.ok ⟨[102, 111, 111, 0]⟩ ∧
    (∃ e, CString.new [102, 0, 111] = Except.error e ∧
      e.into_vec = [102, 0, 111] ∧
      [102, 0, 111][e.nul_position]? = some 0 ∧
      ∀ j < e.nul_position, [102, 0, 111][j]? ≠ some 0) :=
  ⟨(cstring_new_spec [102, 111, 111]).1 (by decide),
   (cstring_new_spec [102, 0, 111]).2 (by decide)⟩

/-- C7: for nul-free bytes b, the `CString` built by `new` has `as_bytes`
equal to b, `as_bytes_with_nul` equal to b followed by a single 0 byte, and
`as_bytes_with_nul` equals `as_bytes` extended by one final 0 byte. -/
theorem cstring_as_bytes_spec (bytes : List Nat) (c : CString)
    (h : CString.new bytes = Except.ok c) :
    c.as_bytes = bytes ∧
    c.as_bytes_with_nul = bytes ++ [0] ∧
    c.as_bytes_with_nul = c.as_bytes ++ [0] := by
  have hc : c = ⟨bytes ++ [0]⟩ := by
    rw [CString.new] at h
    cases hm : memchr 0 bytes with
    | none =>
      rw [hm] at h
      exact (Except.ok.inj h).symm
    | some i => rw [hm] at h; simp at h
  subst hc
  refine ⟨?_, rfl, ?_⟩ <;>
    simp [CString.as_bytes, CString.as_bytes_with_nul, List.dropLast_concat]

/-- Witness for C7: the `CString` built from `[102, 111, 111]` has the three
byte views related as stated. -/
theorem cstring_as_bytes_spec_witness :
    CString.as_bytes ⟨[102, 111, 111, 0]⟩ = [102, 111, 111] ∧
    CString.as_bytes_with_nul ⟨[102, 111, 111, 0]⟩ = [102, 111, 111] ++ [0] ∧
    CString.as_bytes_with_nul ⟨[102, 111, 111, 0]⟩ =
      CString.as_bytes ⟨[102, 111, 111, 0]⟩ ++ [0] :=
  cstring_as_bytes_spec [102, 111, 111] ⟨[102, 111, 111, 0]⟩ rfl

/-! ## UTF-8 validation model (semantics of `String::from_utf8`, called by
`CString::into_string` in `src/src/ffi/string.rs`) -/

/-- The `core::str::Utf8Error`: the number of valid bytes before the error
and the length of the invalid byte sequence (`none` when the input ended in
the middle of a multi-byte sequence). -/
structure Utf8Error where
  valid_up_to : Nat
  error_len : Option Nat
  deriving Repr, DecidableEq

/-- A UTF-8 continuation byte: `0x80 ..= 0xBF`. -/
def utf8IsCont (b : Nat) : Bool :=
  0x80 ≤ b && b ≤ 0xBF

/-- Allowed second byte of a three-byte sequence led by `b`: `E0` requires
`A0..=BF`, `ED` requires `80..=9F`, the rest a plain continuation byte. -/
def utf8Second3 (b c : Nat) : Bool :=
  if b = 0xE0 then 0xA0 ≤ c && c ≤ 0xBF
  else if b = 0xED then 0x80 ≤ c && c ≤ 0x9F
  else utf8IsCont c

/-- Allowed second byte of a four-byte sequence led by `b`: `F0` requires
`90..=BF`, `F4` requires `80..=8F`, the rest a plain continuation byte. -/
def utf8Second4 (b c : Nat) : Bool :=
  if b = 0xF0 then 0x90 ≤ c && c ≤ 0xBF
  else if b = 0xF4 then 0x80 ≤ c && c ≤ 0x8F
  else utf8IsCont c

/-- The documented behavior of `core::str` UTF-8 validation
(`run_utf8_validation`): returns `none` on valid input, otherwise the
`Utf8Error` at the first offending position; `i` is the offset of bytes
already validated. -/
def utf8Validate (i : Nat) : List Nat → Option Utf8Error
  | [] => none
  | b :: rest =>
    if b ≤ 0x7F then utf8Validate (i + 1) rest
    else if b < 0xC2 then some ⟨i, some 1⟩
    else if b ≤ 0xDF then
      match rest with
      | [] => some ⟨i, none⟩
      | c :: rest2 =>
        if utf8IsCont c then utf8Validate (i + 2) rest2 else some ⟨i, some 1⟩
    else if b ≤ 0xEF then
      match rest with
      | [] => some ⟨i, none⟩
      | c :: rest2 =>
        if utf8Second3 b c then
          match rest2 with
          | [] => some ⟨i, none⟩
          | d :: rest3 =>
            if utf8IsCont d then utf8Validate (i + 3) rest3 else some ⟨i, some 2⟩
        else some ⟨i, some 1⟩
    else if b ≤ 0xF4 then
      match rest with
      | [] => some ⟨i, none⟩
      | c :: rest2 =>
        if utf8Second4 b c then
          match rest2 with
          | [] => some ⟨i, none⟩
          | d :: rest3 =>
            if utf8IsCont d then
              match rest3 with
              | [] => some ⟨i, none⟩
              | e :: rest4 =>
                if utf8IsCont e then utf8Validate (i + 4) rest4
                else some ⟨i, some 3⟩
            else some ⟨i, some 2⟩
        else some ⟨i, some 1⟩
    else some ⟨i, some 1⟩

/-- The `std::string::FromUtf8Error`: the original bytes and the underlying
UTF-8 error. -/
structure FromUtf8Error where
  bytes : List Nat
  error : Utf8Error
  deriving Repr, DecidableEq

/-- `FromUtf8Error::utf8_error`. -/
def FromUtf8Error.utf8_error (e : FromUtf8Error) : Utf8Error := e.error

/-- `FromUtf8Error::into_bytes`. -/
def FromUtf8Error.into_bytes (e : FromUtf8Error) : List Nat := e.bytes

/-- The documented behavior of `String::from_utf8`: the byte content when it
is valid UTF-8, otherwise an error holding the original bytes and the UTF-8
error. A Rust `String` is exactly its UTF-8 byte content, so the model
returns the byte list. -/
def string_from_utf8 (v : List Nat) : Except FromUtf8Error (List Nat) :=
  match utf8Validate 0 v with
  | none => Except.ok v
  | some err => Except.error ⟨v, err⟩

/-- The `IntoStringError` of `src/src/ffi/string.rs` (lines 122–127): the
rebuilt `CString` and the underlying UTF-8 error. -/
structure IntoStringError where
  inner : CString
  error : Utf8Error
  deriving Repr, DecidableEq

/-- `IntoStringError::into_cstring` (`src/src/ffi/string.rs` lines 469–471). -/
def IntoStringError.into_cstring (e : IntoStringError) : CString := e.inner

/-- `IntoStringError::utf8_error` (`src/src/ffi/string.rs` lines 474–476). -/
def IntoStringError.utf8_error (e : IntoStringError) : Utf8Error := e.error

/-- `CString::into_string` (`src/src/ffi/string.rs` lines 295–300):
`String::from_utf8(self.into_bytes())`, mapping the error to an
`IntoStringError` whose `inner` is `from_vec_unchecked(e.into_bytes())` and
whose `error` is `e.utf8_error()`. -/
def CString.into_string (c : CString) : Except IntoStringError (List Nat) :=
  match string_from_utf8 c.into_bytes with
  | Except.ok s => Except.ok s
  | Except.error e =>
    Except.error ⟨from_vec_unchecked e.into_bytes, e.utf8_error⟩

/-! ## into_string theorem (C10) -/

/-- C10: for a `CString` with content b (buffer b followed by the nul), if b
is valid UTF-8 then `into_string` returns b; if not, `into_string` returns an
error from which `into_cstring` recovers a `CString` with exactly the same
byte content, and whose `utf8_error` is the UTF-8 error of b. -/
theorem into_string_spec (b : List Nat) (c : CString) (h : c.inner = b ++ [0]) :
    (utf8Validate 0 b = none → c.into_string = Except.ok b) ∧
    (∀ err, utf8Validate 0 b = some err →
      ∃ e, c.into_string = Except.error e ∧
        e.into_cstring.as_bytes_with_nul = c.as_bytes_with_nul ∧
        e.utf8_error = err) := by
  have hb : c.into_bytes = b := by
    simp [CString.into_bytes, h, List.dropLast_concat]
  constructor
  · intro hv
    rw [CString.into_string, hb, string_from_utf8, hv]
  · intro err hv
    refine ⟨⟨from_vec_unchecked b, err⟩, ?_, ?_, rfl⟩
    · rw [CString.into_string, hb, string_from_utf8, hv]
      rfl
    · simp [IntoStringError.into_cstring, from_vec_unchecked,
        CString.as_bytes_with_nul, h]

/-- Witness for C10: the `CString` over content `[102, 255, 111, 111]` (the
byte `0xFF` is not valid UTF-8) fails `into_string` with `valid_up_to = 1`,
recovering the identical buffer; the `CString` over `[102, 111, 111]`
converts to that content. -/
theorem into_string_spec_witness :
    (∃ e, (CString.mk [102, 255, 111, 111, 0]).into_string = Except.error e ∧
      e.into_cstring.as_bytes_with_nul =
        (CString.mk [102, 255, 111, 111, 0]).as_bytes_with_nul ∧
      e.utf8_error = ⟨1, some 1⟩) ∧
    (CString.mk [102, 111, 111, 0]).into_string = Except.ok [102, 111, 111] :=
  ⟨(into_string_spec [102, 255, 111, 111] ⟨[102, 255, 111, 111, 0]⟩ rfl).2
      ⟨1, some 1⟩ (by decide),
   (into_string_spec [102, 111, 111] ⟨[102, 111, 111, 0]⟩ rfl).1 (by decide)⟩

end DroneCore
